import Mathlib

/-!
Verification of the pdf-extractor-api orchestration layer.

The definitions below are a shallow embedding of the Python sources:
`app/services/pdf_service.py`, `app/services/llm_service.py`,
`app/controllers/pdf_controller.py`, `app/models/schemas.py`.
The PDF engine (PyMuPDF), the table engine (pdfplumber) and the LLM backend
are external collaborators: their outputs are inputs of the embedding.
The repository layer (`app/database/repository.py`, `app/database/models.py`)
and `app/utils/file_utils.py` are not among the provided sources; the
definitions standing in for them are modelled from the specification and are
marked as such in their doc comments.
-/

/-! ### Definitions: the shallow embedding -/

/-- Value of a decimal digit character. -/
def decDigitVal (c : Char) : Nat := c.toNat - 48

/-- Decode a big-endian list of decimal digit characters back to a number. -/
def decValue (l : List Char) : Nat := l.foldl (fun a c => 10 * a + decDigitVal c) 0

def isPySpace (c : Char) : Bool :=
  c = ' ' || c = '\t' || c = '\n' || c = '\r' || c = '\x0b' || c = '\x0c'

def pyStrip (s : String) : String :=
  ⟨((s.data.dropWhile isPySpace).reverse.dropWhile isPySpace).reverse⟩

def pySlice (s : String) (n : Nat) : String := ⟨s.data.take n⟩

def dictHasKey {α : Type} (d : List (String × α)) (k : String) : Bool :=
  d.any (fun p => p.1 = k)

/-- Model of `d[k] = v` on a Python dict. -/
def dictInsert {α : Type} (d : List (String × α)) (k : String) (v : α) :
    List (String × α) :=
  if dictHasKey d k then d.map (fun p => if p.1 = k then (k, v) else p)
  else d ++ [(k, v)]

/-- Model of `d.setdefault(k, []).append(v)` style updates:
`if k not in d: d[k] = []` followed by `d[k].append(v)`. -/
def dictAppend {α : Type} (d : List (String × List α)) (k : String) (v : α) :
    List (String × List α) :=
  if dictHasKey d k then d.map (fun p => if p.1 = k then (p.1, p.2 ++ [v]) else p)
  else d ++ [(k, [v])]

def pageLabel (n : Nat) : String := "Page " ++ Nat.repr n

/-- Modelled from the spec: the repository layer
(`app/database/repository.py`, not among the sources) persists per-page
artifacts with a numeric 1-based page number, recovered from the
human-readable page label "Page N" used as the dict key. -/
def parse_page_label (s : String) : Nat := decValue (s.data.drop 5)

/-- `FileInfo` from `app/models/schemas.py`. -/
structure FileInfo where
  filename : String
  path : String
deriving Repr, DecidableEq

/-- One embedded image as seen through the PDF engine: only its format
extension is observable in the orchestration layer (the raw bytes are decoded
and re-encoded by the external image library). -/
structure PdfImage where
  ext : String
deriving Repr, DecidableEq

/-- One page as seen through the PDF engine: its extracted text and its
embedded images, in order. -/
structure PdfPage where
  text : String
  images : List PdfImage
deriving Repr, Inhabited, DecidableEq

/-- One table cell as produced by the table engine (a string or null). -/
abbrev Cell := Option String

/-- One extracted table: a grid of cells. -/
abbrev Grid := List (List Cell)

/-- The same file as seen by the two engines: per-page text and images
(PDF engine) and per-page tables (table engine). -/
structure PdfFile where
  pages : List PdfPage
  tablePages : List (List Grid)
deriving Repr, DecidableEq

/-- `TextData` from `app/models/schemas.py`: dict mapping page labels to
extracted text, in insertion order. -/
structure TextData where
  pages : List (String × String)
deriving Repr, DecidableEq

/-- `TableData` from `app/models/schemas.py`: dict mapping page labels to the
list of tables of that page. -/
structure TableData where
  pages : List (String × List Grid)
deriving Repr, DecidableEq

/-- `ImageLink` from `app/models/schemas.py`. -/
structure ImageLink where
  url : String
  page : Nat
  index : Nat
  filename : String
  document_id : String
deriving Repr, DecidableEq

/-- `PDFExtractResponse` from `app/models/schemas.py`.  The creation
timestamp is abstracted as a natural number. -/
structure PDFExtractResponse where
  id : String
  filename : String
  text : TextData
  tables : TableData
  images : List ImageLink
  summary : Option String
  created_at : Nat
deriving Repr, DecidableEq

/-- Modelled from the spec: `app.utils.file_utils.get_image_url` is not among
the sources; per the spec and the listing controller, the image URL is derived
from the API prefix and the stored filename. -/
def get_image_url (filename : String) : String := "/api/v1/images/" ++ filename

/-- The filenames and links built in the inner image loop of
`PDFService.extract_text_and_images` for one page: for the image at
0-based position `img_index` on 0-based page `page_num`, the saved filename is
`{document_id}_page_{page_num + 1}_image_{img_index + 1}.{ext}`. -/
def pageImageLinks (document_id : String) (page_num : Nat)
    (imgs : List PdfImage) : List ImageLink :=
  imgs.enum.map fun ii =>
    let image_filename :=
      document_id ++ "_page_" ++ Nat.repr (page_num + 1) ++ "_image_" ++
        Nat.repr (ii.1 + 1) ++ "." ++ ii.2.ext
    { url := get_image_url image_filename
      page := page_num + 1
      index := ii.1 + 1
      filename := image_filename
      document_id := document_id }

/-- `PDFService.extract_text_and_images`: loop over the pages, populating the
text dict with key `f"Page {page_num + 1}"` and extending the image link
list. -/
def extract_text_and_images (pages : List PdfPage) (document_id : String) :
    TextData × List ImageLink :=
  let r := pages.enum.foldl
    (fun (acc : List (String × String) × List ImageLink) pn =>
      (dictInsert acc.1 (pageLabel (pn.1 + 1)) pn.2.text,
       acc.2 ++ pageImageLinks document_id pn.1 pn.2.images))
    ([], [])
  (⟨r.1⟩, r.2)

/-- `PDFService.extract_tables`: loop over the pages of the table engine,
recording `f"Page {page_num + 1}"` only when the page has tables. -/
def extract_tables (tablePages : List (List Grid)) : TableData :=
  ⟨tablePages.enum.foldl
    (fun d pn => if pn.2.isEmpty then d else dictInsert d (pageLabel (pn.1 + 1)) pn.2)
    []⟩

/-- Modelled from the spec: one TextPage row (1-based page number, content). -/
structure TextRow where
  page_number : Nat
  content : String
deriving Repr, DecidableEq

/-- Modelled from the spec: one Table row.  The table grid is serialized to
JSON on save and parsed back by `json.loads` on retrieval; per the spec the
stored serialized form deserializes back into the grid structure, so the
save/load pair is modelled as the identity on grids and the row carries the
grid itself. -/
structure TableRow where
  page_number : Nat
  table_index : Nat
  table_data : Grid
deriving Repr, DecidableEq

/-- Modelled from the spec: one Image row (metadata only; bytes are on disk). -/
structure ImageRow where
  page_number : Nat
  image_index : Nat
  filename : String
deriving Repr, DecidableEq

/-- Modelled from the spec: one Document row with its child artifacts. -/
structure DocumentRow where
  id : String
  filename : String
  original_filename : String
  created_at : Nat
  text_contents : List TextRow
  tables : List TableRow
  images : List ImageRow
deriving Repr, DecidableEq

/-- The relational store: the list of document rows in creation order. -/
structure DB where
  docs : List DocumentRow
deriving Repr, DecidableEq

/-- Modelled from the spec: `PDFRepository.get_document_with_relations`
returns the document with the given id together with its children. -/
def findDoc (docs : List DocumentRow) (id : String) : Option DocumentRow :=
  docs.find? (fun d => d.id = id)

def updateDoc (docs : List DocumentRow) (id : String)
    (f : DocumentRow → DocumentRow) : List DocumentRow :=
  docs.map (fun d => if d.id = id then f d else d)

/-- Modelled from the spec: `PDFRepository.create_document` inserts a fresh
Document row (no children yet) and returns it. -/
def DB.create_document (db : DB) (id stored orig : String) (created : Nat) :
    DB × DocumentRow :=
  let row : DocumentRow := ⟨id, stored, orig, created, [], [], []⟩
  (⟨db.docs ++ [row]⟩, row)

/-- Modelled from the spec: `PDFRepository.save_text_content` stores one
TextPage row per entry of the page-labelled text dict, with the numeric page
number recovered from the label. -/
def text_rows (pages : List (String × String)) : List TextRow :=
  pages.map (fun p => ⟨parse_page_label p.1, p.2⟩)

def DB.save_text_content (db : DB) (id : String) (pages : List (String × String)) : DB :=
  ⟨updateDoc db.docs id
    (fun d => { d with text_contents := d.text_contents ++ text_rows pages })⟩

/-- Modelled from the spec: `PDFRepository.save_images` stores one Image row
per produced image link. -/
def image_rows (links : List ImageLink) : List ImageRow :=
  links.map (fun l => ⟨l.page, l.index, l.filename⟩)

def DB.save_images (db : DB) (id : String) (links : List ImageLink) : DB :=
  ⟨updateDoc db.docs id (fun d => { d with images := d.images ++ image_rows links })⟩

/-- Modelled from the spec: `PDFRepository.save_tables` stores one Table row
per detected table, with its 0-based index among the tables of its page and
the numeric page number recovered from the label. -/
def table_rows (pages : List (String × List Grid)) : List TableRow :=
  (pages.map (fun p =>
    p.2.enum.map (fun ig => (⟨parse_page_label p.1, ig.1, ig.2⟩ : TableRow)))).flatten

def DB.save_tables (db : DB) (id : String) (pages : List (String × List Grid)) : DB :=
  ⟨updateDoc db.docs id (fun d => { d with tables := d.tables ++ table_rows pages })⟩

/-- Outcome of one `llm.invoke` call: the response content, or a raised
exception carrying a message. -/
inductive LLMResult where
  | ok (content : String)
  | err (msg : String)
deriving Repr, DecidableEq

/-- A constructed backend: a function from the submitted
(system prompt, user prompt) pair to the call outcome. -/
abbrev LLMBackend := String × String → LLMResult

/-- Ghost observation of the summarization path: whether `get_llm` was
reached (backend construction attempted) and the message pairs submitted to
the backend. -/
structure LLMTrace where
  constructed : Bool
  calls : List (String × String)
deriving Repr, DecidableEq

/-- The system prompt of `LLMService.summarize_text`. -/
def system_prompt : String :=
  "You are a helpful assistant that creates concise summaries of documents.\nYour task is to summarize the provided document content clearly and accurately.\nFocus on the main points, key information, and important details.\nKeep the summary informative but concise."

/-- The user prompt of `LLMService.summarize_text`: the input text is cut to
its first 15000 characters (`text[:15000]`) before being framed. -/
def user_prompt (max_length : Nat) (text : String) : String :=
  "Please summarize the following document content in approximately " ++
    Nat.repr max_length ++
    " words or less:\n\n---\n" ++
    pySlice text 15000 ++
    "\n---\n\nProvide a clear, structured summary that captures the essential information."

/-- `LLMService.summarize_text`.  `get_llm` is the outcome of backend
construction: a backend, or a raised configuration error (missing key,
unsupported provider).  Any exception from construction or from the invoke
call is caught and turned into `none`. -/
def summarize_text (get_llm : Except String LLMBackend) (text : String)
    (max_length : Nat := 500) : Option String × LLMTrace :=
  if text = "" ∨ pyStrip text = "" then (none, ⟨false, []⟩)
  else
    match get_llm with
    | Except.error _ => (none, ⟨true, []⟩)
    | Except.ok invoke =>
      match invoke (system_prompt, user_prompt max_length text) with
      | LLMResult.err _ =>
        (none, ⟨true, [(system_prompt, user_prompt max_length text)]⟩)
      | LLMResult.ok content =>
        (some (pyStrip content), ⟨true, [(system_prompt, user_prompt max_length text)]⟩)

/-- `PDFService.generate_summary`: page texts are joined with blank lines and
page labels; empty overall text short-circuits to `none`; errors degrade to
`none` inside `summarize_text`. -/
def full_document_text (text_data : TextData) : String :=
  String.intercalate "\n\n" (text_data.pages.map (fun p => p.1 ++ ":\n" ++ p.2))

def generate_summary (get_llm : Except String LLMBackend) (text_data : TextData) :
    Option String × LLMTrace :=
  if pyStrip (full_document_text text_data) = "" then (none, ⟨false, []⟩)
  else summarize_text get_llm (full_document_text text_data)

/-- Everything `process_pdf` produces: the store after the writes, the image
filenames written to the image folder, the response, and the ghost LLM
trace.  The generated document id, the system-assigned stored filename and
the creation timestamp are nondeterministic inputs of the embedding. -/
structure ProcessOutcome where
  db : DB
  imageFiles : List String
  response : PDFExtractResponse
  trace : LLMTrace
deriving Repr, DecidableEq

def process_pdf (db : DB) (file : PdfFile) (file_info : FileInfo)
    (document_id stored_filename : String) (created_at : Nat)
    (include_summary : Bool) (get_llm : Except String LLMBackend) : ProcessOutcome :=
  let cr := db.create_document document_id stored_filename file_info.filename created_at
  let document := cr.2
  let te := extract_text_and_images file.pages document.id
  let text_data := te.1
  let image_links := te.2
  let table_data := extract_tables file.tablePages
  let db2 := cr.1.save_text_content document.id text_data.pages
  let db3 := db2.save_images document.id image_links
  let db4 := if table_data.pages.isEmpty then db3
    else db3.save_tables document.id table_data.pages
  let st := if include_summary then generate_summary get_llm text_data
    else (none, ⟨false, []⟩)
  { db := db4
    imageFiles := image_links.map (fun l => l.filename)
    response :=
      { id := document.id
        filename := file_info.filename
        text := text_data
        tables := table_data
        images := image_links
        summary := st.1
        created_at := document.created_at }
    trace := st.2 }

def get_pdf_by_id (db : DB) (document_id : String) : Option PDFExtractResponse :=
  match findDoc db.docs document_id with
  | none => none
  | some document =>
    let text_pages := document.text_contents.foldl
      (fun d t => dictInsert d (pageLabel t.page_number) t.content) []
    let table_pages := document.tables.foldl
      (fun d t => dictAppend d (pageLabel t.page_number) t.table_data) []
    let image_links := document.images.map (fun img =>
      ({ url := get_image_url img.filename
         page := img.page_number
         index := img.image_index
         filename := img.filename
         document_id := document_id } : ImageLink))
    some
      { id := document_id
        filename := document.original_filename
        text := ⟨text_pages⟩
        tables := ⟨table_pages⟩
        images := image_links
        summary := none
        created_at := document.created_at }

/-- The state-threaded form of the retrieval path: the source performs no
write on this path, so the handler returns the store it was given. -/
def get_pdf_step (db : DB) (document_id : String) :
    Option PDFExtractResponse × DB :=
  (get_pdf_by_id db document_id, db)

/-- A Python exception as observed by the `except` clause: either a FastAPI
`HTTPException` (whose `str()` is `f"{status_code}: {detail}"`) or any other
exception carrying a message. -/
inductive PyExc where
  | httpExc (status : Nat) (detail : String)
  | exc (msg : String)
deriving Repr, DecidableEq

/-- `str(e)` for the exceptions above. -/
def pyStr : PyExc → String
  | PyExc.httpExc status detail => Nat.repr status ++ ": " ++ detail
  | PyExc.exc msg => msg

/-- Python `str.lower()` on code points. -/
def pyLower (s : String) : String := ⟨s.data.map Char.toLower⟩

/-- Python `str.endswith(pat)` on code points. -/
def pyEndsWith (s pat : String) : Bool := List.isSuffixOf pat.data s.data

/-- The wire-level outcome of a handler: a response body or an HTTP error. -/
inductive HttpOutcome where
  | ok (r : PDFExtractResponse)
  | error (status : Nat) (detail : String)
deriving Repr, DecidableEq

/-- The `extract_pdf` handler.  The extension check runs first; everything
after it sits in a `try` block whose `except Exception` converts any raised
exception (including the handler's own internal `HTTPException(500, ...)`)
into a 400 whose detail embeds `str(e)`.  Failures of the external engines
and of `save_upload_file` (the latter not among the sources) are injected as
parameters; `dbOnFailure` is the unspecified partial store left behind when
processing raises mid-way. -/
def extract_pdf (db : DB) (file : PdfFile) (upload_filename : String)
    (include_summary : Bool)
    (save_result : Except PyExc FileInfo) (engineFailure : Option PyExc)
    (dbOnFailure : DB)
    (document_id stored_filename : String) (created_at : Nat)
    (get_llm : Except String LLMBackend) : HttpOutcome × DB :=
  if ¬ (pyEndsWith (pyLower upload_filename) ".pdf") then
    (HttpOutcome.error 400 "Only PDF files are supported.", db)
  else
    match save_result with
    | Except.error e =>
      (HttpOutcome.error 400 ("Error processing PDF: " ++ pyStr e), db)
    | Except.ok file_info =>
      match engineFailure with
      | some e =>
        (HttpOutcome.error 400 ("Error processing PDF: " ++ pyStr e), dbOnFailure)
      | none =>
        let out := process_pdf db file file_info document_id stored_filename
          created_at include_summary get_llm
        if out.response.id = "" then
          (HttpOutcome.error 400
            ("Error processing PDF: " ++ pyStr (PyExc.httpExc 500 "Failed to generate document ID")),
           out.db)
        else
          (HttpOutcome.ok out.response, out.db)

/-- A backend whose construction raises, or whose every invoke call raises:
the failure modes of `LLMService.get_llm` (missing credentials, unsupported
provider name) and of `llm.invoke` (network failure). -/
def FailingBackend (get_llm : Except String LLMBackend) : Prop :=
  (∃ m, get_llm = Except.error m) ∨
  (∃ invoke, get_llm = Except.ok invoke ∧
    ∀ msgs, ∃ m, invoke msgs = LLMResult.err m)

/-! ### Theorems -/



theorem decDigitVal_digitChar {d : Nat} (h : d < 10) :
    decDigitVal (Nat.digitChar d) = d := by
  interval_cases d <;> rfl

theorem decValue_append_singleton (l : List Char) (c : Char) :
    decValue (l ++ [c]) = 10 * decValue l + decDigitVal c := by
  simp [decValue, List.foldl_append]

theorem toDigitsCore_shift (b : Nat) :
    ∀ (f n : Nat) (l : List Char),
      Nat.toDigitsCore b f n l = Nat.toDigitsCore b f n [] ++ l := by
  intro f
  induction f with
  | zero => intro n l; simp [Nat.toDigitsCore]
  | succ f ih =>
    intro n l
    simp only [Nat.toDigitsCore]
    by_cases h : n / b = 0
    · simp [h]
    · rw [if_neg h, if_neg h, ih (n / b) (Nat.digitChar (n % b) :: l),
        ih (n / b) [Nat.digitChar (n % b)], List.append_assoc]
      rfl

theorem decValue_toDigitsCore :
    ∀ (f n : Nat), n < f → decValue (Nat.toDigitsCore 10 f n []) = n := by
  intro f
  induction f with
  | zero => intro n hn; omega
  | succ f ih =>
    intro n hn
    simp only [Nat.toDigitsCore]
    by_cases h : n / 10 = 0
    · have hlt : n < 10 := by omega
      rw [if_pos h]
      have : decValue [Nat.digitChar (n % 10)] = n % 10 := by
        simp [decValue, decDigitVal_digitChar (Nat.mod_lt n (by omega))]
      rw [this, Nat.mod_eq_of_lt hlt]
    · rw [if_neg h, toDigitsCore_shift, decValue_append_singleton]
      have hdiv : n / 10 < f := by
        have h1 : n / 10 < n := Nat.div_lt_self (by omega) (by omega)
        omega
      rw [ih (n / 10) hdiv, decDigitVal_digitChar (Nat.mod_lt n (by omega))]
      omega

theorem decValue_repr (n : Nat) : decValue (Nat.repr n).data = n := by
  have : (Nat.repr n).data = Nat.toDigitsCore 10 (n + 1) n [] := rfl
  rw [this]
  exact decValue_toDigitsCore (n + 1) n (Nat.lt_succ_self n)

theorem repr_injective : Function.Injective Nat.repr := by
  intro m n h
  have := congrArg (fun s => decValue s.data) h
  simpa [decValue_repr] using this

theorem string_eq_of_data_eq {a b : String} (h : a.data = b.data) : a = b := by
  cases a; cases b; exact congrArg String.mk h

theorem string_length_data (s : String) : s.length = s.data.length := rfl

/-- Two strings with distinct prefixes of equal length stay distinct after
appending arbitrary suffixes. -/
theorem append_ne_of_ne_of_length_eq {a b : String} (s t : String)
    (hlen : a.length = b.length) (hne : a ≠ b) : a ++ s ≠ b ++ t := by
  intro h
  apply hne
  have hd := congrArg String.data h
  rw [String.data_append, String.data_append] at hd
  apply string_eq_of_data_eq
  have h1 : (a.data ++ s.data).take a.data.length = a.data := List.take_left _ _
  have h2 : (b.data ++ t.data).take b.data.length = b.data := List.take_left _ _
  have hlen' : a.data.length = b.data.length := hlen
  rw [← h1, ← h2, hd, hlen']

theorem pyStrip_of_all_space {s : String} (h : s.data.all isPySpace = true) :
    pyStrip s = "" := by
  have h' : ∀ c ∈ s.data, isPySpace c = true := by
    intro c hc; exact List.all_eq_true.mp h c hc
  have h1 : s.data.dropWhile isPySpace = [] := List.dropWhile_eq_nil_iff.mpr h'
  simp [pyStrip, h1]

theorem pySlice_idem (s : String) (n : Nat) : pySlice (pySlice s n) n = pySlice s n := by
  simp [pySlice, List.take_take]

theorem pySlice_of_length_le {s : String} {n : Nat} (h : s.length ≤ n) :
    pySlice s n = s := by
  apply string_eq_of_data_eq
  simp only [pySlice]
  exact List.take_of_length_le h

theorem dictInsert_of_not_hasKey {α : Type} {d : List (String × α)} {k : String}
    (h : dictHasKey d k = false) (v : α) : dictInsert d k v = d ++ [(k, v)] := by
  simp [dictInsert, h]

theorem dictHasKey_append {α : Type} (d₁ d₂ : List (String × α)) (k : String) :
    dictHasKey (d₁ ++ d₂) k = (dictHasKey d₁ k || dictHasKey d₂ k) := by
  simp [dictHasKey]

/-- Folding fresh-key insertions over a dict appends the pairs in order. -/
theorem foldl_dictInsert_nodup {α : Type} :
    ∀ (l : List (String × α)) (d : List (String × α)),
      (l.map Prod.fst).Nodup →
      (∀ k ∈ l.map Prod.fst, dictHasKey d k = false) →
      l.foldl (fun d p => dictInsert d p.1 p.2) d = d ++ l := by
  intro l
  induction l with
  | nil => intro d _ _; simp
  | cons p t ih =>
    intro d hnd hdis
    have hp : dictHasKey d p.1 = false := hdis p.1 (by simp)
    have hstep : dictInsert d p.1 p.2 = d ++ [(p.1, p.2)] := dictInsert_of_not_hasKey hp p.2
    simp only [List.foldl_cons, hstep]
    have hnd' : (t.map Prod.fst).Nodup := by
      simp only [List.map_cons, List.nodup_cons] at hnd
      exact hnd.2
    have hne : ∀ k ∈ t.map Prod.fst, k ≠ p.1 := by
      intro k hk
      simp only [List.map_cons, List.nodup_cons] at hnd
      intro hkp; exact hnd.1 (hkp ▸ hk)
    have hdis' : ∀ k ∈ t.map Prod.fst, dictHasKey (d ++ [(p.1, p.2)]) k = false := by
      intro k hk
      rw [dictHasKey_append]
      have h1 : dictHasKey d k = false := hdis k (by simp; right; simpa using hk)
      have h2 : dictHasKey [(p.1, p.2)] k = false := by
        simp [dictHasKey]
        exact fun h => absurd h.symm (hne k hk)
      simp [h1, h2]
    rw [ih (d ++ [(p.1, p.2)]) hnd' hdis']
    simp

theorem dictAppend_last {α : Type} :
    ∀ (gs : List α) (pre : List (String × List α)) (k : String) (acc : List α),
      dictHasKey pre k = false →
      gs.foldl (fun d g => dictAppend d k g) (pre ++ [(k, acc)]) =
        pre ++ [(k, acc ++ gs)] := by
  intro gs
  induction gs with
  | nil => intro pre k acc _; simp
  | cons g t ih =>
    intro pre k acc hpre
    have hkey : dictHasKey (pre ++ [(k, acc)]) k = true := by
      rw [dictHasKey_append]
      simp [dictHasKey]
    have hmap : (pre ++ [(k, acc)]).map
        (fun p => if p.1 = k then (p.1, p.2 ++ [g]) else p) =
        pre ++ [(k, acc ++ [g])] := by
      rw [List.map_append]
      congr 1
      · have hpt : ∀ p ∈ pre,
            (if p.1 = k then (p.1, p.2 ++ [g]) else p) = id p := by
          intro p hp
          have : ¬ p.1 = k := by
            have := (List.any_eq_false.mp hpre) p hp
            simpa using this
          simp [this]
        rw [List.map_congr_left hpt, List.map_id]
      · simp
    simp only [List.foldl_cons]
    rw [show dictAppend (pre ++ [(k, acc)]) k g =
          pre ++ [(k, acc ++ [g])] by simp [dictAppend, hkey, hmap]]
    rw [ih pre k (acc ++ [g]) hpre]
    simp

/-- Folding element-wise appends of key-grouped values rebuilds the groups. -/
theorem foldl_dictAppend_groups {α : Type} :
    ∀ (groups : List (String × List α)) (pre : List (String × List α)),
      (groups.map Prod.fst).Nodup →
      (∀ k ∈ groups.map Prod.fst, dictHasKey pre k = false) →
      (∀ p ∈ groups, p.2 ≠ []) →
      ((groups.map (fun p => p.2.map (fun g => (p.1, g)))).flatten).foldl
          (fun d pr => dictAppend d pr.1 pr.2) pre = pre ++ groups := by
  intro groups
  induction groups with
  | nil => intro pre _ _ _; simp
  | cons p t ih =>
    intro pre hnd hdis hne
    obtain ⟨k, gs⟩ := p
    obtain ⟨g, gs', hgs⟩ : ∃ g gs', gs = g :: gs' := by
      have := hne (k, gs) (by simp)
      cases gs with
      | nil => simp at this
      | cons a b => exact ⟨a, b, rfl⟩
    subst hgs
    have hkpre : dictHasKey pre k = false := hdis k (by simp)
    simp only [List.map_cons, List.flatten_cons, List.foldl_append, List.foldl_cons]
    rw [show dictAppend pre k g = pre ++ [(k, [g])] by simp [dictAppend, hkpre]]
    rw [List.foldl_map]
    have hfn : (fun (x : List (String × List α)) (y : α) =>
        dictAppend x (k, y).1 (k, y).2) = fun d g => dictAppend d k g := rfl
    rw [hfn, dictAppend_last gs' pre k [g] hkpre]
    have hnd' : (t.map Prod.fst).Nodup := by
      simp only [List.map_cons, List.nodup_cons] at hnd
      exact hnd.2
    have hkt : ∀ k' ∈ t.map Prod.fst, k' ≠ k := by
      intro k' hk'
      simp only [List.map_cons, List.nodup_cons] at hnd
      intro hkp; exact hnd.1 (hkp ▸ hk')
    have hdis' : ∀ k' ∈ t.map Prod.fst,
        dictHasKey (pre ++ [(k, g :: gs')]) k' = false := by
      intro k' hk'
      rw [dictHasKey_append]
      have h1 : dictHasKey pre k' = false := hdis k' (by simp; right; simpa using hk')
      have h2 : dictHasKey [(k, g :: gs')] k' = false := by
        simp [dictHasKey]
        exact fun h => absurd h.symm (hkt k' hk')
      simp [h1, h2]
    have hne' : ∀ p ∈ t, p.2 ≠ [] := fun p hp => hne p (by simp [hp])
    simp only [List.singleton_append]
    rw [ih (pre ++ [(k, g :: gs')]) hnd' hdis' hne']
    simp

theorem pageLabel_injective : Function.Injective pageLabel := by
  intro m n h
  have hd := congrArg String.data h
  simp only [pageLabel, String.data_append] at hd
  have := List.append_cancel_left hd
  exact repr_injective (string_eq_of_data_eq this)

theorem parse_page_label_pageLabel (n : Nat) :
    parse_page_label (pageLabel n) = n := by
  have hd : (pageLabel n).data = "Page ".data ++ (Nat.repr n).data :=
    String.data_append _ _
  simp only [parse_page_label, hd]
  rw [List.drop_left' (show ("Page ".data).length = 5 from rfl)]
  exact decValue_repr n

theorem foldl_pair_split (document_id : String) :
    ∀ (l : List (Nat × PdfPage)) (d : List (String × String)) (ls : List ImageLink),
      l.foldl
        (fun (acc : List (String × String) × List ImageLink) pn =>
          (dictInsert acc.1 (pageLabel (pn.1 + 1)) pn.2.text,
           acc.2 ++ pageImageLinks document_id pn.1 pn.2.images))
        (d, ls) =
      (l.foldl (fun d pn => dictInsert d (pageLabel (pn.1 + 1)) pn.2.text) d,
       ls ++ (l.map (fun pn => pageImageLinks document_id pn.1 pn.2.images)).flatten) := by
  intro l
  induction l with
  | nil => intro d ls; simp
  | cons pn t ih =>
    intro d ls
    simp only [List.foldl_cons, List.map_cons, List.flatten_cons, ih, List.append_assoc]

/-- The page labels over any index range are pairwise distinct. -/
theorem nodup_pageLabels (offs : Nat) (l : List Nat) (h : l.Nodup) :
    (l.map (fun n => pageLabel (n + offs))).Nodup := by
  apply List.Nodup.map _ h
  intro a b hab
  have := pageLabel_injective hab
  omega

/-- Closed form of the text loop: one entry per page, in page order. -/
theorem extract_text_closed (pages : List PdfPage) (document_id : String) :
    (extract_text_and_images pages document_id).1.pages =
      pages.enum.map (fun pn => (pageLabel (pn.1 + 1), pn.2.text)) := by
  simp only [extract_text_and_images, foldl_pair_split]
  have hfold : pages.enum.foldl
      (fun d pn => dictInsert d (pageLabel (pn.1 + 1)) pn.2.text) [] =
      (pages.enum.map (fun pn => (pageLabel (pn.1 + 1), pn.2.text))).foldl
        (fun d p => dictInsert d p.1 p.2) [] := by
    rw [List.foldl_map]
  rw [hfold, foldl_dictInsert_nodup _ []]
  · simp
  · have hkeys : (pages.enum.map (fun pn => (pageLabel (pn.1 + 1), pn.2.text))).map
        Prod.fst = (List.range pages.length).map (fun n => pageLabel (n + 1)) := by
      rw [List.map_map, ← List.enum_map_fst pages, List.map_map]
      rfl
    rw [hkeys]
    exact nodup_pageLabels 1 _ (List.nodup_range _)
  · intro k _
    rfl

/-- Closed form of the image loop: the concatenation of the per-page links. -/
theorem extract_images_closed (pages : List PdfPage) (document_id : String) :
    (extract_text_and_images pages document_id).2 =
      (pages.enum.map (fun pn => pageImageLinks document_id pn.1 pn.2.images)).flatten := by
  simp only [extract_text_and_images, foldl_pair_split]
  simp

/-- Closed form of the table loop: one entry per page having tables. -/
theorem extract_tables_closed (tablePages : List (List Grid)) :
    (extract_tables tablePages).pages =
      tablePages.enum.filterMap
        (fun pn => if pn.2.isEmpty then none else some (pageLabel (pn.1 + 1), pn.2)) := by
  simp only [extract_tables]
  have main : ∀ (l : List (Nat × List Grid)) (d : List (String × List Grid)),
      ((l.map (fun pn => pageLabel (pn.1 + 1))).Nodup) →
      (∀ k ∈ l.map (fun pn => pageLabel (pn.1 + 1)), dictHasKey d k = false) →
      l.foldl
        (fun d pn => if pn.2.isEmpty then d else dictInsert d (pageLabel (pn.1 + 1)) pn.2)
        d =
      d ++ l.filterMap
        (fun pn => if pn.2.isEmpty then none else some (pageLabel (pn.1 + 1), pn.2)) := by
    intro l
    induction l with
    | nil => intro d _ _; simp
    | cons pn t ih =>
      intro d hnd hdis
      simp only [List.map_cons, List.nodup_cons] at hnd
      by_cases he : pn.2.isEmpty
      · simp only [List.foldl_cons, List.filterMap_cons]
        rw [if_pos he, if_pos he]
        exact ih d hnd.2 (fun k hk => hdis k (by simp [hk]))
      · have hp : dictHasKey d (pageLabel (pn.1 + 1)) = false := hdis _ (by simp)
        simp only [List.foldl_cons, List.filterMap_cons]
        rw [if_neg he, if_neg he, dictInsert_of_not_hasKey hp]
        have hdis' : ∀ k ∈ t.map (fun pn => pageLabel (pn.1 + 1)),
            dictHasKey (d ++ [(pageLabel (pn.1 + 1), pn.2)]) k = false := by
          intro k hk
          rw [dictHasKey_append]
          have h1 : dictHasKey d k = false := hdis k (by simp [hk])
          have h2 : dictHasKey [(pageLabel (pn.1 + 1), pn.2)] k = false := by
            simp [dictHasKey]
            intro hkp
            rw [← hkp] at hk
            exact hnd.1 hk
          simp [h1, h2]
        rw [ih (d ++ [(pageLabel (pn.1 + 1), pn.2)]) hnd.2 hdis']
        simp
  rw [main _ []]
  · simp
  · have hkeys : tablePages.enum.map (fun pn => pageLabel (pn.1 + 1)) =
        (List.range tablePages.length).map (fun n => pageLabel (n + 1)) := by
      rw [← List.enum_map_fst tablePages, List.map_map]
      rfl
    rw [hkeys]
    exact nodup_pageLabels 1 _ (List.nodup_range _)
  · intro k _
    rfl

theorem updateDoc_of_fresh (docs : List DocumentRow) (id : String)
    (h : ∀ d ∈ docs, d.id ≠ id) (f : DocumentRow → DocumentRow) :
    updateDoc docs id f = docs := by
  unfold updateDoc
  apply List.map_congr_left ?_ |>.trans (List.map_id docs)
  intro d hd
  simp [h d hd]

theorem updateDoc_append_single (docs : List DocumentRow) (row : DocumentRow)
    (id : String) (h : ∀ d ∈ docs, d.id ≠ id) (hrow : row.id = id)
    (f : DocumentRow → DocumentRow) :
    updateDoc (docs ++ [row]) id f = docs ++ [f row] := by
  unfold updateDoc
  rw [List.map_append]
  congr 1
  · exact (List.map_congr_left (fun d hd => by simp [h d hd])).trans (List.map_id docs)
  · simp [hrow]

theorem findDoc_append_single (docs : List DocumentRow) (row : DocumentRow)
    (id : String) (h : ∀ d ∈ docs, d.id ≠ id) (hrow : row.id = id) :
    findDoc (docs ++ [row]) id = some row := by
  unfold findDoc
  rw [List.find?_append]
  have h1 : docs.find? (fun d => d.id = id) = none := by
    apply List.find?_eq_none.mpr
    intro d hd
    simp [h d hd]
  rw [h1]
  simp [hrow]

/-- After `process_pdf`, the store is the old store plus one fully populated
document row (provided the generated id is fresh). -/
theorem process_pdf_db (db : DB) (file : PdfFile) (file_info : FileInfo)
    (document_id stored_filename : String) (created_at : Nat)
    (include_summary : Bool) (get_llm : Except String LLMBackend)
    (hfresh : ∀ d ∈ db.docs, d.id ≠ document_id) :
    (process_pdf db file file_info document_id stored_filename created_at
        include_summary get_llm).db.docs =
      db.docs ++
        [⟨document_id, stored_filename, file_info.filename, created_at,
          text_rows (extract_text_and_images file.pages document_id).1.pages,
          table_rows (extract_tables file.tablePages).pages,
          image_rows (extract_text_and_images file.pages document_id).2⟩] := by
  simp only [process_pdf, DB.create_document, DB.save_text_content,
    DB.save_images, DB.save_tables]
  by_cases ht : (extract_tables file.tablePages).pages.isEmpty
  · simp only [ht, ite_true]
    rw [updateDoc_append_single db.docs _ document_id hfresh rfl,
      updateDoc_append_single db.docs _ document_id hfresh rfl]
    have : table_rows (extract_tables file.tablePages).pages = [] := by
      rw [List.isEmpty_iff.mp ht]
      rfl
    simp [this]
  · rw [if_neg ht]
    rw [updateDoc_append_single db.docs _ document_id hfresh rfl,
      updateDoc_append_single db.docs _ document_id hfresh rfl,
      updateDoc_append_single db.docs _ document_id hfresh rfl]
    simp

theorem foldl_congr_fn {α β : Type} :
    ∀ (l : List β) (f g : α → β → α) (a : α),
      (∀ x ∈ l, ∀ acc, f acc x = g acc x) → l.foldl f a = l.foldl g a := by
  intro l
  induction l with
  | nil => intro f g a _; rfl
  | cons x t ih =>
    intro f g a h
    simp only [List.foldl_cons]
    rw [h x (by simp) a]
    exact ih f g (g a x) (fun y hy acc => h y (by simp [hy]) acc)

theorem filterMap_guard_eq {α β : Type} (p : α → Bool) (g : α → β) :
    ∀ (l : List α),
      l.filterMap (fun x => if p x then none else some (g x)) =
        (l.filter (fun x => ! p x)).map g := by
  intro l
  induction l with
  | nil => rfl
  | cons x t ih =>
    by_cases hx : p x
    · simp [List.filterMap_cons, List.filter_cons, hx, ih]
    · simp [List.filterMap_cons, List.filter_cons, hx, ih]

/-- Every key of the table dict is a page label, its page set is duplicate
free, and every entry is a nonempty table list. -/
theorem extract_tables_keys (tablePages : List (List Grid)) :
    (∀ p ∈ (extract_tables tablePages).pages,
        pageLabel (parse_page_label p.1) = p.1 ∧ p.2 ≠ []) ∧
      ((extract_tables tablePages).pages.map Prod.fst).Nodup := by
  rw [extract_tables_closed]
  constructor
  · intro p hp
    obtain ⟨a, _, ha⟩ := List.mem_filterMap.mp hp
    by_cases he : a.2.isEmpty
    · simp [he] at ha
    · rw [if_neg he] at ha
      obtain rfl := Option.some_inj.mp ha
      refine ⟨by rw [parse_page_label_pageLabel], ?_⟩
      intro hnil
      rw [hnil] at he
      simp at he
  · have heq : tablePages.enum.filterMap
        (fun pn => if pn.2.isEmpty then none else some (pageLabel (pn.1 + 1), pn.2)) =
        (tablePages.enum.filter (fun pn => ! pn.2.isEmpty)).map
          (fun pn => (pageLabel (pn.1 + 1), pn.2)) := filterMap_guard_eq _ _ _
    rw [heq, List.map_map]
    have hkeys : (tablePages.enum.filter (fun pn => ! pn.2.isEmpty)).map
        (Prod.fst ∘ fun pn => (pageLabel (pn.1 + 1), pn.2)) =
        ((tablePages.enum.filter (fun pn => ! pn.2.isEmpty)).map Prod.fst).map
          (fun n => pageLabel (n + 1)) := by
      rw [List.map_map]
      rfl
    rw [hkeys]
    apply List.Nodup.map
    · intro a b hab
      have := pageLabel_injective hab
      omega
    · apply List.Nodup.sublist
      · exact List.Sublist.map Prod.fst (List.filter_sublist _)
      · rw [List.enum_map_fst]
        exact List.nodup_range _

/-- Reconstructing the text dict from the stored rows gives back the dict
built at processing time, whenever the keys are genuine page labels and are
duplicate free. -/
theorem reconstruct_text_rows (P : List (String × String))
    (hP : ∀ p ∈ P, pageLabel (parse_page_label p.1) = p.1)
    (hnd : (P.map Prod.fst).Nodup) :
    (text_rows P).foldl
      (fun d t => dictInsert d (pageLabel t.page_number) t.content) [] = P := by
  unfold text_rows
  rw [List.foldl_map]
  have hcg : P.foldl
      (fun d p =>
        dictInsert d (pageLabel (parse_page_label p.1)) p.2) [] =
      P.foldl (fun d p => dictInsert d p.1 p.2) [] := by
    apply foldl_congr_fn
    intro p hp acc
    rw [hP p hp]
  have hfn : (fun (x : List (String × String)) (y : String × String) =>
      dictInsert x
        (pageLabel (⟨parse_page_label y.1, y.2⟩ : TextRow).page_number)
        (⟨parse_page_label y.1, y.2⟩ : TextRow).content) =
      fun d p => dictInsert d (pageLabel (parse_page_label p.1)) p.2 := rfl
  rw [hfn, hcg, foldl_dictInsert_nodup P [] hnd (fun k _ => rfl)]
  simp

/-- Reconstructing the per-page table dict from the stored per-table rows
gives back the dict built at processing time. -/
theorem reconstruct_table_rows (T : List (String × List Grid))
    (hP : ∀ p ∈ T, pageLabel (parse_page_label p.1) = p.1 ∧ p.2 ≠ [])
    (hnd : (T.map Prod.fst).Nodup) :
    (table_rows T).foldl
      (fun d t => dictAppend d (pageLabel t.page_number) t.table_data) [] = T := by
  unfold table_rows
  have hfold : ∀ (rows : List TableRow) (d : List (String × List Grid)),
      rows.foldl (fun d t => dictAppend d (pageLabel t.page_number) t.table_data) d =
      (rows.map (fun t => (pageLabel t.page_number, t.table_data))).foldl
        (fun d pr => dictAppend d pr.1 pr.2) d := by
    intro rows d
    rw [List.foldl_map]
  rw [hfold]
  have hpairs : (T.map (fun p =>
      p.2.enum.map (fun ig => (⟨parse_page_label p.1, ig.1, ig.2⟩ : TableRow)))).flatten.map
      (fun t => (pageLabel t.page_number, t.table_data)) =
      (T.map (fun p => p.2.map (fun g => (p.1, g)))).flatten := by
    rw [List.map_flatten]
    congr 1
    rw [List.map_map]
    apply List.map_congr_left
    intro p hp
    simp only [Function.comp, List.map_map]
    rw [show (List.map ((fun t => (pageLabel t.page_number, t.table_data)) ∘
        fun ig => (⟨parse_page_label p.1, ig.1, ig.2⟩ : TableRow)) p.2.enum) =
        (p.2.enum.map Prod.snd).map
          (fun g => (pageLabel (parse_page_label p.1), g)) by
      rw [List.map_map]; rfl]
    rw [List.enum_map_snd, (hP p hp).1]
  rw [hpairs]
  have := foldl_dictAppend_groups T [] hnd (fun k _ => rfl)
    (fun p hp => (hP p hp).2)
  simpa using this

theorem extract_text_keys (pages : List PdfPage) (document_id : String) :
    (∀ p ∈ (extract_text_and_images pages document_id).1.pages,
        pageLabel (parse_page_label p.1) = p.1) ∧
      ((extract_text_and_images pages document_id).1.pages.map Prod.fst).Nodup := by
  rw [extract_text_closed]
  constructor
  · intro p hp
    obtain ⟨a, _, ha⟩ := List.mem_map.mp hp
    rw [← ha]
    simp [parse_page_label_pageLabel]
  · rw [List.map_map]
    have hkeys : pages.enum.map
        (Prod.fst ∘ fun pn => (pageLabel (pn.1 + 1), pn.2.text)) =
        (pages.enum.map Prod.fst).map (fun n => pageLabel (n + 1)) := by
      rw [List.map_map]
      rfl
    rw [hkeys, List.enum_map_fst]
    exact nodup_pageLabels 1 _ (List.nodup_range _)

/-- C1 (supporting form): retrieval after processing rebuilds exactly the
text dict, the table dict and the image links of the processing-time
response, with no summary. -/
theorem get_after_process (db : DB) (file : PdfFile) (file_info : FileInfo)
    (document_id stored_filename : String) (created_at : Nat)
    (include_summary : Bool) (get_llm : Except String LLMBackend)
    (hfresh : ∀ d ∈ db.docs, d.id ≠ document_id) :
    get_pdf_by_id
        (process_pdf db file file_info document_id stored_filename created_at
          include_summary get_llm).db document_id =
      some
        { id := document_id
          filename := file_info.filename
          text := (extract_text_and_images file.pages document_id).1
          tables := extract_tables file.tablePages
          images := (extract_text_and_images file.pages document_id).2
          summary := none
          created_at := created_at } := by
  unfold get_pdf_by_id
  rw [process_pdf_db db file file_info document_id stored_filename created_at
    include_summary get_llm hfresh]
  rw [findDoc_append_single db.docs _ document_id hfresh rfl]
  have htext := reconstruct_text_rows
    (extract_text_and_images file.pages document_id).1.pages
    (extract_text_keys file.pages document_id).1
    (extract_text_keys file.pages document_id).2
  have htab := reconstruct_table_rows (extract_tables file.tablePages).pages
    (extract_tables_keys file.tablePages).1
    (extract_tables_keys file.tablePages).2
  simp only [htext, htab]
  congr 1
  have himg : (image_rows (extract_text_and_images file.pages document_id).2).map
      (fun img =>
        ({ url := get_image_url img.filename
           page := img.page_number
           index := img.image_index
           filename := img.filename
           document_id := document_id } : ImageLink)) =
      (extract_text_and_images file.pages document_id).2 := by
    unfold image_rows
    rw [List.map_map]
    apply (List.map_congr_left ?_).trans
      (List.map_id (extract_text_and_images file.pages document_id).2)
    intro l hl
    rw [extract_images_closed] at hl
    obtain ⟨sub, hsub, hlsub⟩ := List.mem_flatten.mp hl
    obtain ⟨pn, _, hpn⟩ := List.mem_map.mp hsub
    rw [← hpn] at hlsub
    unfold pageImageLinks at hlsub
    obtain ⟨ii, _, hii⟩ := List.mem_map.mp hlsub
    simp only [Function.comp]
    rw [← hii]
    rfl
  simp [himg]

theorem string_append_assoc (a b c : String) : a ++ b ++ c = a ++ (b ++ c) := by
  apply string_eq_of_data_eq
  simp [String.data_append, List.append_assoc]

/-- For every produced image link, the saved filename is the document id
followed by the page and index encoding. -/
theorem mem_extract_images (pages : List PdfPage) (d : String) (l : ImageLink)
    (hl : l ∈ (extract_text_and_images pages d).2) :
    ∃ e, l.filename = d ++ "_page_" ++ Nat.repr l.page ++ "_image_" ++
      Nat.repr l.index ++ "." ++ e := by
  rw [extract_images_closed] at hl
  obtain ⟨sub, hsub, hlsub⟩ := List.mem_flatten.mp hl
  obtain ⟨pn, _, hpn⟩ := List.mem_map.mp hsub
  rw [← hpn] at hlsub
  unfold pageImageLinks at hlsub
  obtain ⟨ii, _, hii⟩ := List.mem_map.mp hlsub
  refine ⟨ii.2.ext, ?_⟩
  rw [← hii]

/-- C2: for every PDF with at least one page, the text mapping of the
`process_pdf` response has exactly one entry per page, keyed "Page 1" ..
"Page N" in ascending page order, each entry holding that page's extracted
text. -/
theorem c2_text_mapping (db : DB) (file : PdfFile) (file_info : FileInfo)
    (document_id stored_filename : String) (created_at : Nat)
    (include_summary : Bool) (get_llm : Except String LLMBackend)
    (_hN : 1 ≤ file.pages.length) :
    (process_pdf db file file_info document_id stored_filename created_at
        include_summary get_llm).response.text.pages =
      (List.range file.pages.length).map
        (fun i => (pageLabel (i + 1), (file.pages.getD i default).text)) ∧
    (process_pdf db file file_info document_id stored_filename created_at
        include_summary get_llm).response.text.pages.length = file.pages.length := by
  have hmain : (process_pdf db file file_info document_id stored_filename created_at
      include_summary get_llm).response.text.pages =
      (List.range file.pages.length).map
        (fun i => (pageLabel (i + 1), (file.pages.getD i default).text)) := by
    have h0 : (process_pdf db file file_info document_id stored_filename created_at
        include_summary get_llm).response.text =
        (extract_text_and_images file.pages document_id).1 := rfl
    rw [h0, extract_text_closed]
    apply List.ext_getElem?
    intro i
    rw [List.getElem?_map, List.getElem?_enum, List.getElem?_map]
    by_cases hi : i < file.pages.length
    · rw [List.getElem?_range hi, List.getElem?_eq_getElem hi]
      simp [List.getD_eq_getElem?_getD, List.getElem?_eq_getElem hi]
    · have h1 : file.pages[i]? = none := by
        rw [List.getElem?_eq_none_iff]
        omega
      have h2 : (List.range file.pages.length)[i]? = none := by
        rw [List.getElem?_eq_none_iff, List.length_range]
        omega
      rw [h1, h2]
      rfl
  exact ⟨hmain, by rw [hmain]; simp⟩

/-- C5: every image link produced by extraction carries the filename
`{document_id}_page_{N}_image_{index}.{ext}` with `N` and `index` the page
and index fields of the link, and two processed documents with distinct
(equal-length, UUID-shaped) ids share no image filename. -/
theorem c5_image_filenames (pages1 pages2 : List PdfPage) (d1 d2 : String)
    (hne : d1 ≠ d2) (hlen : d1.length = d2.length) :
    (∀ l ∈ (extract_text_and_images pages1 d1).2,
        ∃ e, l.filename = d1 ++ "_page_" ++ Nat.repr l.page ++ "_image_" ++
          Nat.repr l.index ++ "." ++ e) ∧
    (∀ l1 ∈ (extract_text_and_images pages1 d1).2,
      ∀ l2 ∈ (extract_text_and_images pages2 d2).2,
        l1.filename ≠ l2.filename) := by
  refine ⟨fun l hl => mem_extract_images pages1 d1 l hl, ?_⟩
  intro l1 h1 l2 h2
  obtain ⟨e1, he1⟩ := mem_extract_images pages1 d1 l1 h1
  obtain ⟨e2, he2⟩ := mem_extract_images pages2 d2 l2 h2
  rw [he1, he2]
  simp only [string_append_assoc]
  exact append_ne_of_ne_of_length_eq _ _ hlen hne

/-- C6: whatever the stored state and the requested id, a retrieval result
carries no summary. -/
theorem c6_summary_absent_on_retrieval (db : DB) (document_id : String)
    (r : PDFExtractResponse) (h : get_pdf_by_id db document_id = some r) :
    r.summary = none := by
  unfold get_pdf_by_id at h
  cases hf : findDoc db.docs document_id with
  | none => rw [hf] at h; cases h
  | some doc =>
    rw [hf] at h
    have := Option.some_inj.mp h
    rw [← this]

/-- C9: the retrieval path mutates nothing (the threaded store comes back
unchanged), so reading the same id twice from the same stored state yields
identical content. -/
theorem c9_get_idempotent (db : DB) (document_id : String) :
    (get_pdf_step db document_id).2 = db ∧
    (get_pdf_step (get_pdf_step db document_id).2 document_id).1 =
      (get_pdf_step db document_id).1 :=
  ⟨rfl, rfl⟩

/-- C4: an upload whose filename does not end in ".pdf" (after lowercasing)
is rejected with a 400 and the fixed message, before anything else runs: the
store is returned untouched, so no Document row is created. -/
theorem c4_non_pdf_rejected (db : DB) (file : PdfFile) (upload_filename : String)
    (include_summary : Bool) (save_result : Except PyExc FileInfo)
    (engineFailure : Option PyExc) (dbOnFailure : DB)
    (document_id stored_filename : String) (created_at : Nat)
    (get_llm : Except String LLMBackend)
    (hext : pyEndsWith (pyLower upload_filename) ".pdf" = false) :
    extract_pdf db file upload_filename include_summary save_result engineFailure
        dbOnFailure document_id stored_filename created_at get_llm =
      (HttpOutcome.error 400 "Only PDF files are supported.", db) := by
  unfold extract_pdf
  rw [if_pos (by simp [hext])]

/-- C10: once the extension check passes, the handler body yields either a
success or a 400 whose detail embeds the raised exception's message; an
injected save or engine exception is reported that way, and the internal
HTTPException(500) raised for an empty document id is likewise swallowed
into a 400.  No branch after the extension check returns a 500. -/
theorem c10_try_block_maps_errors_to_400 (db : DB) (file : PdfFile)
    (upload_filename : String) (include_summary : Bool)
    (save_result : Except PyExc FileInfo) (engineFailure : Option PyExc)
    (dbOnFailure : DB) (document_id stored_filename : String) (created_at : Nat)
    (get_llm : Except String LLMBackend)
    (hext : pyEndsWith (pyLower upload_filename) ".pdf" = true) :
    ((∃ r, (extract_pdf db file upload_filename include_summary save_result
        engineFailure dbOnFailure document_id stored_filename created_at
        get_llm).1 = HttpOutcome.ok r) ∨
      (∃ m, (extract_pdf db file upload_filename include_summary save_result
        engineFailure dbOnFailure document_id stored_filename created_at
        get_llm).1 = HttpOutcome.error 400 ("Error processing PDF: " ++ m))) ∧
    (∀ e, save_result = Except.error e →
      (extract_pdf db file upload_filename include_summary save_result
        engineFailure dbOnFailure document_id stored_filename created_at
        get_llm).1 = HttpOutcome.error 400 ("Error processing PDF: " ++ pyStr e)) ∧
    (∀ fi e, save_result = Except.ok fi → engineFailure = some e →
      (extract_pdf db file upload_filename include_summary save_result
        engineFailure dbOnFailure document_id stored_filename created_at
        get_llm).1 = HttpOutcome.error 400 ("Error processing PDF: " ++ pyStr e)) ∧
    (∀ fi, save_result = Except.ok fi → engineFailure = none → document_id = "" →
      (extract_pdf db file upload_filename include_summary save_result
        engineFailure dbOnFailure document_id stored_filename created_at
        get_llm).1 = HttpOutcome.error 400 ("Error processing PDF: " ++
          pyStr (PyExc.httpExc 500 "Failed to generate document ID"))) := by
  unfold extract_pdf
  rw [if_neg (by simp [hext])]
  cases save_result with
  | error e =>
    refine ⟨Or.inr ⟨pyStr e, rfl⟩, ?_, ?_, ?_⟩
    · intro e' he'
      have : e = e' := by injection he'
      rw [this]
    · intro fi e' hfi
      exact absurd hfi (by intro h; cases h)
    · intro fi hfi
      exact absurd hfi (by intro h; cases h)
  | ok fi =>
    cases engineFailure with
    | some e =>
      refine ⟨Or.inr ⟨pyStr e, rfl⟩, ?_, ?_, ?_⟩
      · intro e' he'
        cases he'
      · intro fi' e' _ he'
        have : e = e' := by injection he'
        rw [this]
      · intro fi' _ hef
        cases hef
    | none =>
      dsimp only
      by_cases hid : document_id = ""
      · rw [if_pos (show (process_pdf db file fi document_id stored_filename
            created_at include_summary get_llm).response.id = "" from hid)]
        refine ⟨Or.inr ⟨_, rfl⟩, ?_, ?_, ?_⟩
        · intro e' he'
          cases he'
        · intro fi' e' _ hef
          cases hef
        · intro fi' _ _ _
          rfl
      · rw [if_neg (show ¬ (process_pdf db file fi document_id stored_filename
            created_at include_summary get_llm).response.id = "" from hid)]
        refine ⟨Or.inl ⟨_, rfl⟩, ?_, ?_, ?_⟩
        · intro e' he'
          cases he'
        · intro fi' e' _ hef
          cases hef
        · intro fi' _ _ h
          exact absurd h hid

/-- C8: empty or whitespace-only input makes `summarize_text` return no
summary with the backend neither constructed nor invoked. -/
theorem c8_empty_or_whitespace (get_llm : Except String LLMBackend)
    (text : String) (max_length : Nat)
    (h : text = "" ∨ text.data.all isPySpace = true) :
    summarize_text get_llm text max_length = (none, ⟨false, []⟩) := by
  unfold summarize_text
  rcases h with h | h
  · rw [if_pos (Or.inl h)]
  · rw [if_pos (Or.inr (pyStrip_of_all_space h))]

theorem user_prompt_slice (max_length : Nat) (text : String) :
    user_prompt max_length (pySlice text 15000) = user_prompt max_length text := by
  unfold user_prompt
  rw [pySlice_idem]

/-- C7: whatever `summarize_text` submits to the backend is the prompt built
from the first 15000 characters of the input, and an input of at most 15000
characters goes through whole. -/
theorem c7_truncation (get_llm : Except String LLMBackend) (text : String)
    (max_length : Nat) :
    (∀ msgs ∈ (summarize_text get_llm text max_length).2.calls,
        msgs.2 = user_prompt max_length (pySlice text 15000)) ∧
    (text.length ≤ 15000 → pySlice text 15000 = text) := by
  constructor
  · intro msgs hmsgs
    unfold summarize_text at hmsgs
    by_cases hg : text = "" ∨ pyStrip text = ""
    · rw [if_pos hg] at hmsgs
      simp at hmsgs
    · rw [if_neg hg] at hmsgs
      cases get_llm with
      | error m => simp at hmsgs
      | ok invoke =>
        dsimp only at hmsgs
        have hmem : msgs ∈ [(system_prompt, user_prompt max_length text)] := by
          cases hr : invoke (system_prompt, user_prompt max_length text) with
          | err m => rw [hr] at hmsgs; exact hmsgs
          | ok c => rw [hr] at hmsgs; exact hmsgs
        have : msgs = (system_prompt, user_prompt max_length text) := by
          simpa using hmem
        rw [this, user_prompt_slice]
  · intro hlen
    exact pySlice_of_length_le hlen

/-- C3: with a backend that raises on construction or on every call,
summarization yields no summary for every input, and `process_pdf` still
returns the full extraction result with a null summary. -/
theorem c3_backend_errors_absorbed (get_llm : Except String LLMBackend)
    (hfail : FailingBackend get_llm) :
    (∀ text max_length, (summarize_text get_llm text max_length).1 = none) ∧
    (∀ (db : DB) (file : PdfFile) (file_info : FileInfo)
        (document_id stored_filename : String) (created_at : Nat),
      (process_pdf db file file_info document_id stored_filename created_at
        true get_llm).response =
        { id := document_id
          filename := file_info.filename
          text := (extract_text_and_images file.pages document_id).1
          tables := extract_tables file.tablePages
          images := (extract_text_and_images file.pages document_id).2
          summary := none
          created_at := created_at }) := by
  have hsum : ∀ text max_length,
      (summarize_text get_llm text max_length).1 = none := by
    intro text max_length
    unfold summarize_text
    by_cases hg : text = "" ∨ pyStrip text = ""
    · rw [if_pos hg]
    · rw [if_neg hg]
      rcases hfail with ⟨m, hm⟩ | ⟨invoke, hi, herr⟩
      · rw [hm]
      · rw [hi]
        dsimp only
        obtain ⟨m, hm⟩ := herr (system_prompt, user_prompt max_length text)
        rw [hm]
  refine ⟨hsum, ?_⟩
  intro db file file_info document_id stored_filename created_at
  have hgen : ∀ td, (generate_summary get_llm td).1 = none := by
    intro td
    unfold generate_summary
    by_cases hg : pyStrip (full_document_text td) = ""
    · rw [if_pos hg]
    · rw [if_neg hg]
      exact hsum (full_document_text td) 500
  have hsummary : (process_pdf db file file_info document_id stored_filename
      created_at true get_llm).response.summary = none :=
    hgen (extract_text_and_images file.pages document_id).1
  have hresp : (process_pdf db file file_info document_id stored_filename
      created_at true get_llm).response =
      { id := document_id
        filename := file_info.filename
        text := (extract_text_and_images file.pages document_id).1
        tables := extract_tables file.tablePages
        images := (extract_text_and_images file.pages document_id).2
        summary := (process_pdf db file file_info document_id stored_filename
          created_at true get_llm).response.summary
        created_at := created_at } := rfl
  rw [hresp, hsummary]

/-- C1: after processing, retrieval by the produced document id succeeds and
reports the same text page count, table page count and image count as the
processing-time response, with the summary always absent. -/
theorem c1_round_trip (db : DB) (file : PdfFile) (file_info : FileInfo)
    (document_id stored_filename : String) (created_at : Nat)
    (include_summary : Bool) (get_llm : Except String LLMBackend)
    (hfresh : ∀ d ∈ db.docs, d.id ≠ document_id) :
    ∃ r, get_pdf_by_id (process_pdf db file file_info document_id
        stored_filename created_at include_summary get_llm).db document_id =
        some r ∧
      r.text.pages.length = (process_pdf db file file_info document_id
        stored_filename created_at include_summary get_llm).response.text.pages.length ∧
      r.tables.pages.length = (process_pdf db file file_info document_id
        stored_filename created_at include_summary get_llm).response.tables.pages.length ∧
      r.images.length = (process_pdf db file file_info document_id
        stored_filename created_at include_summary get_llm).response.images.length ∧
      r.summary = none := by
  refine ⟨_, get_after_process db file file_info document_id stored_filename
    created_at include_summary get_llm hfresh, rfl, rfl, rfl, rfl⟩

theorem c1_round_trip_witness :
    (∀ d ∈ (DB.mk []).docs, d.id ≠ "doc-1") ∧
    (∃ r, get_pdf_by_id (process_pdf (DB.mk [])
        (PdfFile.mk [PdfPage.mk "hello" [PdfImage.mk "png"]] [[]])
        (FileInfo.mk "a.pdf" "up") "doc-1" "st.pdf" 0 false
        (Except.error "off")).db "doc-1" = some r ∧
      r.text.pages.length = (process_pdf (DB.mk [])
        (PdfFile.mk [PdfPage.mk "hello" [PdfImage.mk "png"]] [[]])
        (FileInfo.mk "a.pdf" "up") "doc-1" "st.pdf" 0 false
        (Except.error "off")).response.text.pages.length ∧
      r.tables.pages.length = (process_pdf (DB.mk [])
        (PdfFile.mk [PdfPage.mk "hello" [PdfImage.mk "png"]] [[]])
        (FileInfo.mk "a.pdf" "up") "doc-1" "st.pdf" 0 false
        (Except.error "off")).response.tables.pages.length ∧
      r.images.length = (process_pdf (DB.mk [])
        (PdfFile.mk [PdfPage.mk "hello" [PdfImage.mk "png"]] [[]])
        (FileInfo.mk "a.pdf" "up") "doc-1" "st.pdf" 0 false
        (Except.error "off")).response.images.length ∧
      r.summary = none) :=
  ⟨by intro d hd; exact absurd hd (List.not_mem_nil d),
   c1_round_trip (DB.mk [])
     (PdfFile.mk [PdfPage.mk "hello" [PdfImage.mk "png"]] [[]])
     (FileInfo.mk "a.pdf" "up") "doc-1" "st.pdf" 0 false (Except.error "off")
     (by intro d hd; exact absurd hd (List.not_mem_nil d))⟩

theorem c2_text_mapping_witness :
    1 ≤ (PdfFile.mk [PdfPage.mk "alpha" [], PdfPage.mk "beta" []] []).pages.length ∧
    ((process_pdf (DB.mk []) (PdfFile.mk [PdfPage.mk "alpha" [], PdfPage.mk "beta" []] [])
        (FileInfo.mk "a.pdf" "up") "doc-1" "st.pdf" 0 false
        (Except.error "off")).response.text.pages =
      (List.range (PdfFile.mk [PdfPage.mk "alpha" [], PdfPage.mk "beta" []] []).pages.length).map
        (fun i => (pageLabel (i + 1),
          ((PdfFile.mk [PdfPage.mk "alpha" [], PdfPage.mk "beta" []] []).pages.getD i default).text)) ∧
     (process_pdf (DB.mk []) (PdfFile.mk [PdfPage.mk "alpha" [], PdfPage.mk "beta" []] [])
        (FileInfo.mk "a.pdf" "up") "doc-1" "st.pdf" 0 false
        (Except.error "off")).response.text.pages.length =
       (PdfFile.mk [PdfPage.mk "alpha" [], PdfPage.mk "beta" []] []).pages.length) :=
  ⟨by decide,
   c2_text_mapping (DB.mk []) (PdfFile.mk [PdfPage.mk "alpha" [], PdfPage.mk "beta" []] [])
     (FileInfo.mk "a.pdf" "up") "doc-1" "st.pdf" 0 false (Except.error "off")
     (by decide)⟩

theorem c3_backend_errors_absorbed_witness :
    FailingBackend (Except.ok (fun _ => LLMResult.err "boom")) ∧
    (summarize_text (Except.ok (fun _ => LLMResult.err "boom")) "hello" 500).1 = none :=
  ⟨Or.inr ⟨fun _ => LLMResult.err "boom", rfl, fun _ => ⟨"boom", rfl⟩⟩,
   (c3_backend_errors_absorbed (Except.ok (fun _ => LLMResult.err "boom"))
     (Or.inr ⟨fun _ => LLMResult.err "boom", rfl, fun _ => ⟨"boom", rfl⟩⟩)).1
     "hello" 500⟩

theorem c4_non_pdf_rejected_witness :
    pyEndsWith (pyLower "notes.txt") ".pdf" = false ∧
    extract_pdf (DB.mk []) (PdfFile.mk [] []) "notes.txt" true
        (Except.ok (FileInfo.mk "notes.txt" "up")) none (DB.mk [])
        "doc-1" "st.pdf" 0 (Except.error "off") =
      (HttpOutcome.error 400 "Only PDF files are supported.", DB.mk []) :=
  ⟨by decide,
   c4_non_pdf_rejected (DB.mk []) (PdfFile.mk [] []) "notes.txt" true
     (Except.ok (FileInfo.mk "notes.txt" "up")) none (DB.mk [])
     "doc-1" "st.pdf" 0 (Except.error "off") (by decide)⟩

theorem c5_image_filenames_witness :
    ("doc-0001" : String) ≠ "doc-0002" ∧
    ("doc-0001" : String).length = ("doc-0002" : String).length ∧
    ((∀ l ∈ (extract_text_and_images [PdfPage.mk "a" [PdfImage.mk "png"]] "doc-0001").2,
        ∃ e, l.filename = "doc-0001" ++ "_page_" ++ Nat.repr l.page ++ "_image_" ++
          Nat.repr l.index ++ "." ++ e) ∧
     (∀ l1 ∈ (extract_text_and_images [PdfPage.mk "a" [PdfImage.mk "png"]] "doc-0001").2,
       ∀ l2 ∈ (extract_text_and_images [PdfPage.mk "b" [PdfImage.mk "png"]] "doc-0002").2,
         l1.filename ≠ l2.filename)) :=
  ⟨by decide, by decide,
   c5_image_filenames [PdfPage.mk "a" [PdfImage.mk "png"]]
     [PdfPage.mk "b" [PdfImage.mk "png"]] "doc-0001" "doc-0002"
     (by decide) (by decide)⟩

theorem c6_summary_absent_witness :
    get_pdf_by_id (DB.mk [DocumentRow.mk "doc-1" "st.pdf" "orig.pdf" 0 [] [] []])
        "doc-1" =
      some (PDFExtractResponse.mk "doc-1" "orig.pdf" (TextData.mk [])
        (TableData.mk []) [] none 0) ∧
    (PDFExtractResponse.mk "doc-1" "orig.pdf" (TextData.mk [])
      (TableData.mk []) [] none 0).summary = none :=
  ⟨by decide,
   c6_summary_absent_on_retrieval
     (DB.mk [DocumentRow.mk "doc-1" "st.pdf" "orig.pdf" 0 [] [] []]) "doc-1"
     (PDFExtractResponse.mk "doc-1" "orig.pdf" (TextData.mk [])
       (TableData.mk []) [] none 0) (by decide)⟩

set_option maxRecDepth 8192 in

theorem c7_truncation_witness :
    (system_prompt, user_prompt 500 "hi").2 = user_prompt 500 (pySlice "hi" 15000) ∧
    pySlice "hi" 15000 = "hi" :=
  ⟨(c7_truncation (Except.ok (fun _ => LLMResult.ok "S")) "hi" 500).1
     (system_prompt, user_prompt 500 "hi") (by decide),
   (c7_truncation (Except.ok (fun _ => LLMResult.ok "S")) "hi" 500).2 (by decide)⟩

theorem c8_empty_or_whitespace_witness :
    (" \n" = "" ∨ (" \n" : String).data.all isPySpace = true) ∧
    summarize_text (Except.ok (fun _ => LLMResult.ok "S")) " \n" 500 =
      (none, LLMTrace.mk false []) :=
  ⟨Or.inr (by decide),
   c8_empty_or_whitespace (Except.ok (fun _ => LLMResult.ok "S")) " \n" 500
     (Or.inr (by decide))⟩

theorem c10_try_block_witness :
    pyEndsWith (pyLower "a.pdf") ".pdf" = true ∧
    (extract_pdf (DB.mk []) (PdfFile.mk [] []) "a.pdf" true
        (Except.error (PyExc.exc "disk full")) none (DB.mk [])
        "doc-1" "st.pdf" 0 (Except.error "off")).1 =
      HttpOutcome.error 400 ("Error processing PDF: " ++ pyStr (PyExc.exc "disk full")) :=
  ⟨by decide,
   (c10_try_block_maps_errors_to_400 (DB.mk []) (PdfFile.mk [] []) "a.pdf" true
     (Except.error (PyExc.exc "disk full")) none (DB.mk [])
     "doc-1" "st.pdf" 0 (Except.error "off") (by decide)).2.1
     (PyExc.exc "disk full") rfl⟩
